import Mathlib

/-
Verification of the db_central repository's behavioral specification.

The development shallowly embeds two Python modules:

* `SqlPractice` — the generic CRUD manager of
  `src/sql_model_practice/db/config/config_db.py` (retry decorator,
  `get_all`, `find_by_attributes`, `update`, `delete`);
* `DbCentral` — the Author/Book façade of
  `src/db_central/database_manager.py` together with the exception
  taxonomy of `src/db_central/exceptions.py`.

Python runtime values that matter to the code (the `isinstance(value, str)`
check, `None`, dictionary attribute values) are modelled by `PyVal`.
Machine state is explicit: the SQLite store is a list of rows, a session
is available iff the manager holds an engine (`connected`), and each
public operation is a pure function from state (and arguments) to an
`Except` result, mirroring the fact that every operation is a single
session scope committed (or rolled back) before returning.
-/

set_option autoImplicit false

/-- A Python runtime value, as far as the embedded code inspects one:
strings, integers, `None`, and a catch-all for other objects. -/
inductive PyVal where
  | str (s : String)
  | int (n : Int)
  | noneV
  | other (tag : String)
  deriving DecidableEq, Repr

/-- A Python exception as raised inside `sql_model_practice`:
its class name, its message, and whether the underlying failure is a
transient connectivity blip (the classification the spec's retry
contract talks about; the code itself never inspects it). -/
structure PyExc where
  kind : String
  msg : String
  transient : Bool
  deriving DecidableEq, Repr

namespace SqlPractice

/-- The retry loop body of `retry_on_failure` (config_db.py:27-50):
`for attempt in range(max_retries + 1): try: return func(...) except
Exception as e: last_exception = e; ... raise last_exception`.
`op attempt` is the outcome of invoking the wrapped function on that
attempt.  Returns the final outcome and the number of invocations made. -/
def retryGo {α : Type} (op : Nat → Except PyExc α) (attempt : Nat) :
    Nat → Except PyExc α × Nat
  | 0 =>
      (op attempt, attempt + 1)
  | remaining + 1 =>
      match op attempt with
      | .ok r => (.ok r, attempt + 1)
      | .error _ => retryGo op (attempt + 1) remaining

/-- `retry_on_failure(max_retries)` applied to an operation: runs
attempts `0, 1, …, max_retries`, stopping at the first success; a
failure on the last attempt is re-raised as-is.  Also reports how many
times the wrapped operation was invoked. -/
def retryRun {α : Type} (max_retries : Nat) (op : Nat → Except PyExc α) :
    Except PyExc α × Nat :=
  retryGo op 0 max_retries

/-- The decorated call's result (`retry_on_failure` dropping the
invocation count). -/
def retry_on_failure {α : Type} (max_retries : Nat) (op : Nat → Except PyExc α) :
    Except PyExc α :=
  (retryRun max_retries op).1

end SqlPractice

/-- A SQLModel table class, as far as the generic manager inspects one:
its `__name__` and its attribute names (what `hasattr` sees). -/
structure PyModelClass where
  name : String
  attrs : List String
  deriving DecidableEq, Repr

/-- A table row: the class it belongs to and its attribute values
(`"id"` included, `Option`-free absence is `PyVal.noneV`). -/
structure PyRecord where
  cls : String
  vals : List (String × PyVal)
  deriving DecidableEq, Repr

/-- `getattr(record, name)` (only the instance attributes matter here). -/
def PyRecord.getattr (r : PyRecord) (a : String) : Option PyVal :=
  (r.vals.find? (fun p => p.1 == a)).map (fun p => p.2)

/-- The record's primary key, when populated with an integer. -/
def PyRecord.pk (r : PyRecord) : Option Int :=
  match r.getattr "id" with
  | some (.int n) => some n
  | _ => none

/-- The SQLite store behind the generic manager: all rows of all tables. -/
structure PStore where
  rows : List PyRecord
  deriving DecidableEq, Repr

/-- Python truthiness of an optional integer argument
(`if limit:` / `if max_length and …`): `None` and `0` are falsy. -/
def pyTruthy : Option Int → Bool
  | none => false
  | some n => n != 0

/-- Python's `str.strip()`: drop leading and trailing whitespace.
Implemented structurally over the character list (rather than through
`String.trim`'s well-founded `Substring` helpers) so that proofs can
evaluate it on concrete strings. -/
def pyStrip (s : String) : String :=
  ⟨((s.data.dropWhile Char.isWhitespace).reverse.dropWhile Char.isWhitespace).reverse⟩

/-- Python's `c in s` membership test for a single character. -/
def pyInStr (c : Char) (s : String) : Bool :=
  s.data.contains c

namespace SqlPractice

/-- SQLite's `LIMIT n` applied to a result list: a negative `n` means
no limit. -/
def sqlLimit (n : Int) (l : List PyRecord) : List PyRecord :=
  if n < 0 then l else l.take n.toNat

/-- `DatabaseManager.get_all` body (config_db.py:154-179):
`select(model_class)`, then `.limit(limit)` only `if limit:`. -/
def get_all_body (db : PStore) (mc : PyModelClass) (limit : Option Int) :
    List PyRecord :=
  let results := db.rows.filter (fun r => r.cls == mc.name)
  if pyTruthy limit then sqlLimit (limit.getD 0) results else results

/-- `DatabaseManager.get_all`, retry decorator included. -/
def get_all (db : PStore) (mc : PyModelClass) (limit : Option Int) :
    Except PyExc (List PyRecord) :=
  retry_on_failure 3 (fun _ => .ok (get_all_body db mc limit))

/-- `DatabaseManager.find_by_attributes` body (config_db.py:181-214):
each filter whose name is not an attribute of the class raises
`ValueError` (checked in dictionary order while building the statement);
otherwise the conjunction of the equality constraints is applied. -/
def find_by_attributes_body (db : PStore) (mc : PyModelClass)
    (filters : List (String × PyVal)) : Except PyExc (List PyRecord) :=
  match filters.find? (fun f => !(mc.attrs.contains f.1)) with
  | some f =>
      .error ⟨"ValueError", mc.name ++ " has no attribute " ++ f.1, false⟩
  | none =>
      .ok ((db.rows.filter (fun r => r.cls == mc.name)).filter
        (fun r => filters.all (fun f => r.getattr f.1 == some f.2)))

/-- `DatabaseManager.find_by_attributes`, retry decorator included. -/
def find_by_attributes (db : PStore) (mc : PyModelClass)
    (filters : List (String × PyVal)) : Except PyExc (List PyRecord) :=
  retry_on_failure 3 (fun _ => find_by_attributes_body db mc filters)

/-- `DatabaseManager.delete` body (config_db.py:257-287): requires
the instance to carry an id, re-fetches the row by primary key, raises
`ValueError` when it does not exist, otherwise removes it and returns
`True`. -/
def delete_body (db : PStore) (inst : PyRecord) :
    Except PyExc (Bool × PStore) :=
  match inst.pk with
  | none =>
      .error ⟨"ValueError", "model_instance must have a valid ID for deletion", false⟩
  | some i =>
      match db.rows.find? (fun r => r.cls == inst.cls && r.pk == some i) with
      | none =>
          .error ⟨"ValueError", "No " ++ inst.cls ++ " found with ID: " ++ toString i, false⟩
      | some _ =>
          .ok (true, ⟨db.rows.filter (fun r => !(r.cls == inst.cls && r.pk == some i))⟩)

/-- `DatabaseManager.delete`, retry decorator included. -/
def delete (db : PStore) (inst : PyRecord) : Except PyExc (Bool × PStore) :=
  retry_on_failure 3 (fun _ => delete_body db inst)

end SqlPractice

/-- An `author` table row (models.py: id pk, name ≤100, email ≤100). -/
structure Author where
  id : Int
  name : String
  email : String
  deriving DecidableEq, Repr

/-- A `book` table row (models.py: id pk, title ≤200, content, author_id fk). -/
structure Book where
  id : Int
  title : String
  content : String
  author_id : Int
  deriving DecidableEq, Repr

/-- The exception taxonomy of `db_central/exceptions.py`: `DBCentralError`
and its four subclasses.  `dbCentralError` is an exception of the base
class itself (what `raise DBCentralError(...)` produces). -/
inductive DBErr where
  | validationError (msg : String)
  | notFoundError (msg : String)
  | queryError (msg : String)
  | connectionError (msg : String)
  | dbCentralError (msg : String)
  deriving DecidableEq, Repr

/-- Whether an exception is an instance of the `ConnectionError` class. -/
def DBErr.isConnectionError : DBErr → Bool
  | .connectionError _ => true
  | _ => false

/-- Whether an exception is an instance of the `ValidationError` class. -/
def DBErr.isValidationError : DBErr → Bool
  | .validationError _ => true
  | _ => false

/-- The state of one `db_central.DatabaseManager`: the two tables of its
SQLite store, the next primary keys the storage will assign, and whether
the manager still holds an engine (`self._engine is not None`). -/
structure DBState where
  authors : List Author
  books : List Book
  nextAuthorId : Int
  nextBookId : Int
  connected : Bool
  deriving DecidableEq, Repr

namespace DbCentral

/-- `DatabaseManager._validate_string` (database_manager.py:63-71):
`isinstance` check, emptiness after `strip()`, then
`if max_length and len(value) > max_length` — note the Python
truthiness: `max_length = 0` disables the length check. -/
def validate_string (value : PyVal) (field_name : String)
    (max_length : Option Int) : Except DBErr String :=
  match value with
  | .str s =>
      if pyStrip s = "" then
        .error (.validationError (field_name ++ " cannot be empty"))
      else if pyTruthy max_length && decide ((s.length : Int) > max_length.getD 0) then
        .error (.validationError (field_name ++ " cannot exceed " ++
          toString (max_length.getD 0) ++ " characters"))
      else
        .ok (pyStrip s)
  | _ => .error (.validationError (field_name ++ " must be a string"))

/-- `DatabaseManager._get_session` (database_manager.py:57-61): raises
`ConnectionError` when the engine is gone. -/
def get_session (st : DBState) : Except DBErr Unit :=
  if st.connected then .ok () else .error (.connectionError "Database not connected")

/-- The common `try/except` tail of every façade method:
`ValidationError` (and, where listed, `NotFoundError`) re-raised as-is,
`SQLAlchemyError` re-raised as `QueryError`, any other exception —
including the library's own `ConnectionError`, which none of the tuples
mention — re-raised as a base-class `DBCentralError` with the method's
prefix prepended to `str(e)`. -/
def wrapExc (passNotFound : Bool) (pre : String) : DBErr → DBErr
  | .validationError m => .validationError m
  | .notFoundError m =>
      if passNotFound then .notFoundError m else .dbCentralError (pre ++ m)
  | .connectionError m => .dbCentralError (pre ++ m)
  | .queryError m => .dbCentralError (pre ++ m)
  | .dbCentralError m => .dbCentralError (pre ++ m)

/-- Run a method body under its `try/except` tail. -/
def runOp {α : Type} (passNotFound : Bool) (pre : String)
    (body : Except DBErr α) : Except DBErr α :=
  match body with
  | .ok a => .ok a
  | .error e => .error (wrapExc passNotFound pre e)

/-- `DatabaseManager.create_author` (database_manager.py:75-122). -/
def create_author (st : DBState) (name email : PyVal) :
    Except DBErr (Author × DBState) :=
  runOp false "Unexpected error creating author: " <|
    match validate_string name "name" (some 100) with
    | .error e => .error e
    | .ok name =>
      match validate_string email "email" (some 100) with
      | .error e => .error e
      | .ok email =>
        if !(pyInStr '@' email) then
          .error (.validationError "Email must contain @ symbol")
        else match get_session st with
        | .error e => .error e
        | .ok _ =>
          match st.authors.find? (fun a => a.email == email) with
          | some _ =>
              .error (.validationError ("Author with email " ++ email ++ " already exists"))
          | none =>
              let author : Author := ⟨st.nextAuthorId, name, email⟩
              .ok (author, ⟨st.authors ++ [author], st.books,
                st.nextAuthorId + 1, st.nextBookId, st.connected⟩)

/-- `DatabaseManager.get_author` (database_manager.py:124-154). -/
def get_author (st : DBState) (author_id : Int) : Except DBErr Author :=
  runOp true "Unexpected error getting author: " <|
    if author_id ≤ 0 then
      .error (.validationError "Author ID must be a positive integer")
    else match get_session st with
    | .error e => .error e
    | .ok _ =>
      match st.authors.find? (fun a => a.id == author_id) with
      | none =>
          .error (.notFoundError ("Author with ID " ++ toString author_id ++ " not found"))
      | some a => .ok a

/-- `DatabaseManager.update_author` (database_manager.py:176-229):
partial update; a new email is re-checked for uniqueness against all
authors other than this one (`Author.id != author_id`). -/
def update_author (st : DBState) (author_id : Int) (name email : Option PyVal) :
    Except DBErr (Author × DBState) :=
  runOp true "Unexpected error updating author: " <|
    if author_id ≤ 0 then
      .error (.validationError "Author ID must be a positive integer")
    else match get_session st with
    | .error e => .error e
    | .ok _ =>
      match st.authors.find? (fun a => a.id == author_id) with
      | none =>
          .error (.notFoundError ("Author with ID " ++ toString author_id ++ " not found"))
      | some author =>
        match (match name with
               | some v => validate_string v "name" (some 100)
               | none => .ok author.name : Except DBErr String) with
        | .error e => .error e
        | .ok newName =>
          match (match email with
                 | some v =>
                   match validate_string v "email" (some 100) with
                   | .error e => .error e
                   | .ok e =>
                     if !(pyInStr '@' e) then
                       .error (.validationError "Email must contain @ symbol")
                     else match st.authors.find?
                         (fun b => b.email == e && b.id != author_id) with
                     | some _ =>
                         .error (.validationError
                           ("Another author with email " ++ e ++ " already exists"))
                     | none => .ok e
                 | none => .ok author.email : Except DBErr String) with
          | .error e => .error e
          | .ok newEmail =>
            let updated : Author := ⟨author.id, newName, newEmail⟩
            .ok (updated,
              ⟨st.authors.map (fun a => if a.id == author_id then updated else a),
                st.books, st.nextAuthorId, st.nextBookId, st.connected⟩)

/-- `DatabaseManager.delete_author` (database_manager.py:231-270):
deletes every book whose `author_id` references the author, then the
author row itself, and returns `True`. -/
def delete_author (st : DBState) (author_id : Int) :
    Except DBErr (Bool × DBState) :=
  runOp true "Unexpected error deleting author: " <|
    if author_id ≤ 0 then
      .error (.validationError "Author ID must be a positive integer")
    else match get_session st with
    | .error e => .error e
    | .ok _ =>
      match st.authors.find? (fun a => a.id == author_id) with
      | none =>
          .error (.notFoundError ("Author with ID " ++ toString author_id ++ " not found"))
      | some _ =>
          .ok (true,
            ⟨st.authors.filter (fun a => !(a.id == author_id)),
              st.books.filter (fun b => !(b.author_id == author_id)),
              st.nextAuthorId, st.nextBookId, st.connected⟩)

/-- `DatabaseManager.create_book` (database_manager.py:274-317). -/
def create_book (st : DBState) (title content : PyVal) (author_id : Int) :
    Except DBErr (Book × DBState) :=
  runOp true "Unexpected error creating book: " <|
    match validate_string title "title" (some 200) with
    | .error e => .error e
    | .ok title =>
      match validate_string content "content" none with
      | .error e => .error e
      | .ok content =>
        if author_id ≤ 0 then
          .error (.validationError "Author ID must be a positive integer")
        else match get_session st with
        | .error e => .error e
        | .ok _ =>
          match st.authors.find? (fun a => a.id == author_id) with
          | none =>
              .error (.notFoundError ("Author with ID " ++ toString author_id ++ " not found"))
          | some _ =>
              let book : Book := ⟨st.nextBookId, title, content, author_id⟩
              .ok (book, ⟨st.authors, st.books ++ [book],
                st.nextAuthorId, st.nextBookId + 1, st.connected⟩)

/-- `DatabaseManager.get_book` (database_manager.py:319-349). -/
def get_book (st : DBState) (book_id : Int) : Except DBErr Book :=
  runOp true "Unexpected error getting book: " <|
    if book_id ≤ 0 then
      .error (.validationError "Book ID must be a positive integer")
    else match get_session st with
    | .error e => .error e
    | .ok _ =>
      match st.books.find? (fun b => b.id == book_id) with
      | none =>
          .error (.notFoundError ("Book with ID " ++ toString book_id ++ " not found"))
      | some b => .ok b

/-- `DatabaseManager.update_book` (database_manager.py:406-461):
partial update of title/content/author_id; a new author must exist. -/
def update_book (st : DBState) (book_id : Int) (title content : Option PyVal)
    (author_id : Option Int) : Except DBErr (Book × DBState) :=
  runOp true "Unexpected error updating book: " <|
    if book_id ≤ 0 then
      .error (.validationError "Book ID must be a positive integer")
    else match get_session st with
    | .error e => .error e
    | .ok _ =>
      match st.books.find? (fun b => b.id == book_id) with
      | none =>
          .error (.notFoundError ("Book with ID " ++ toString book_id ++ " not found"))
      | some book =>
        match (match title with
               | some v => validate_string v "title" (some 200)
               | none => .ok book.title : Except DBErr String) with
        | .error e => .error e
        | .ok newTitle =>
          match (match content with
                 | some v => validate_string v "content" none
                 | none => .ok book.content : Except DBErr String) with
          | .error e => .error e
          | .ok newContent =>
            match (match author_id with
                   | some i =>
                     if i ≤ 0 then
                       .error (.validationError "Author ID must be a positive integer")
                     else if (st.authors.find? (fun a => a.id == i)).isNone then
                       .error (.notFoundError ("Author with ID " ++ toString i ++ " not found"))
                     else .ok i
                   | none => .ok book.author_id : Except DBErr Int) with
            | .error e => .error e
            | .ok newAuthor =>
              let updated : Book := ⟨book.id, newTitle, newContent, newAuthor⟩
              .ok (updated,
                ⟨st.authors,
                  st.books.map (fun b => if b.id == book_id then updated else b),
                  st.nextAuthorId, st.nextBookId, st.connected⟩)

/-- `DatabaseManager.delete_book` (database_manager.py:463-497): raises
`NotFoundError` when no book has the id, otherwise removes the row and
returns `True`. -/
def delete_book (st : DBState) (book_id : Int) : Except DBErr (Bool × DBState) :=
  runOp true "Unexpected error deleting book: " <|
    if book_id ≤ 0 then
      .error (.validationError "Book ID must be a positive integer")
    else match get_session st with
    | .error e => .error e
    | .ok _ =>
      match st.books.find? (fun b => b.id == book_id) with
      | none =>
          .error (.notFoundError ("Book with ID " ++ toString book_id ++ " not found"))
      | some _ =>
          .ok (true,
            ⟨st.authors, st.books.filter (fun b => !(b.id == book_id)),
              st.nextAuthorId, st.nextBookId, st.connected⟩)

/-- ASCII lowering of a string's characters — how SQLite's default
`LIKE` (what SQLAlchemy's `contains` compiles to) compares text. -/
def lowerChars (s : String) : List Char := s.data.map Char.toLower

/-- Specification vocabulary (not part of the program): whether `n` is
a leading run of `h`. -/
def seqStarts : List Char → List Char → Bool
  | [], _ => true
  | _ :: _, [] => false
  | a :: n, b :: h => a == b && seqStarts n h

/-- Specification vocabulary (not part of the program): whether `n`
occurs literally and contiguously inside `h` — the "contains the query
as a substring" reading of the claim. -/
def seqContains (n : List Char) : List Char → Bool
  | [] => n.isEmpty
  | c :: t => seqStarts n (c :: t) || seqContains n t

/-- SQLite's `LIKE` pattern matcher over (already lowered) characters:
`%` matches any — possibly empty — character sequence, `_` matches
exactly one character, any other pattern character matches itself
(no ESCAPE clause is in play).  Implemented with explicit fuel, at
least pattern length + text length + 1, so that the recursion is
structural and the kernel can evaluate it; the fuel value is otherwise
irrelevant. -/
def likeCharsFuel : Nat → List Char → List Char → Bool
  | 0, _, _ => false
  | _ + 1, [], t => t.isEmpty
  | fuel + 1, c :: p2, [] =>
      if c = '%' then likeCharsFuel fuel p2 [] else false
  | fuel + 1, c :: p2, d :: t2 =>
      if c = '%' then
        likeCharsFuel fuel p2 (d :: t2) || likeCharsFuel fuel (c :: p2) t2
      else
        (if c = '_' then true else c == d) && likeCharsFuel fuel p2 t2

/-- SQLite's `LIKE` on lowered characters, with adequate fuel. -/
def likeChars (p t : List Char) : Bool :=
  likeCharsFuel (p.length + t.length + 1) p t

/-- `column.contains(q)` compiles to `LIKE '%' || q || '%'` with no
escaping, so `%` and `_` inside `q` keep their wildcard meaning;
SQLite's default `LIKE` is ASCII-case-insensitive, modelled by lowering
both pattern and text. -/
def likeMatch (hay needle : String) : Bool :=
  likeChars (('%' :: lowerChars needle) ++ ['%']) (lowerChars hay)

/-- `DatabaseManager.search_books` (database_manager.py:501-532): the
query is validated (and thereby trimmed), then matched against title or
content.  (The `query_pattern` local in the source is dead.) -/
def search_books (st : DBState) (query : PyVal) : Except DBErr (List Book) :=
  runOp false "Unexpected error searching books: " <|
    match validate_string query "search query" none with
    | .error e => .error e
    | .ok q =>
      match get_session st with
      | .error e => .error e
      | .ok _ =>
        .ok (st.books.filter (fun b => likeMatch b.title q || likeMatch b.content q))

/-- `DatabaseManager.close` (database_manager.py:559-564): disposes the
engine only when one is present — a no-op on an already-closed manager. -/
def close (st : DBState) : DBState :=
  if st.connected then
    ⟨st.authors, st.books, st.nextAuthorId, st.nextBookId, false⟩
  else st

/-- Storage-level well-formedness: primary keys are unique and positive
(engine-guaranteed), and author emails — all of which were persisted
through the validating façade — are unique, trimmed, non-empty, within
length, and contain an `@`. -/
def WF (st : DBState) : Prop :=
  st.authors.Pairwise (fun a b => a.id ≠ b.id) ∧
  st.books.Pairwise (fun a b => a.id ≠ b.id) ∧
  st.authors.Pairwise (fun a b => a.email ≠ b.email) ∧
  (∀ a ∈ st.authors, 0 < a.id ∧ pyStrip a.email = a.email ∧ a.email ≠ "" ∧
    a.email.length ≤ 100 ∧ pyInStr '@' a.email = true) ∧
  (∀ b ∈ st.books, 0 < b.id)

instance (st : DBState) : Decidable (WF st) := by
  unfold WF; infer_instance

end DbCentral

/-
Concrete fixtures used by witnesses and counterexamples.
-/

/-- An operation failing every attempt with a transient connectivity error. -/
def opAllFail : Nat → Except PyExc Nat :=
  fun _ => .error ⟨"OperationalError", "connection refused", true⟩

/-- An operation failing its first attempt (non-transient) and
succeeding on the second. -/
def opSecondTry : Nat → Except PyExc Nat :=
  fun k => if k = 0 then .error ⟨"ValueError", "bad value", false⟩ else .ok 7

/-- An operation failing every attempt with a non-transient error. -/
def opNonTransient : Nat → Except PyExc Nat :=
  fun _ => .error ⟨"ValueError", "invalid input", false⟩

/-- The `Author` table class as the generic manager sees it. -/
def authorClass : PyModelClass := ⟨"Author", ["id", "name", "email"]⟩

/-- A stored author row. -/
def rowAlice : PyRecord :=
  ⟨"Author", [("id", .int 1), ("name", .str "Alice"), ("email", .str "alice@example.com")]⟩

/-- A second stored author row. -/
def rowBob : PyRecord :=
  ⟨"Author", [("id", .int 2), ("name", .str "Bob"), ("email", .str "bob@example.com")]⟩

/-- A concrete two-row store. -/
def pdb2 : PStore := ⟨[rowAlice, rowBob]⟩

/-- A fresh, connected, empty manager state. -/
def emptyDB : DBState := ⟨[], [], 1, 1, true⟩

/-- A connected manager state holding one author who owns two books. -/
def stLib : DBState :=
  ⟨[⟨1, "Alice", "alice@example.com"⟩],
   [⟨1, "T1", "C1", 1⟩, ⟨2, "T2", "C2", 1⟩], 2, 3, true⟩

/-- A connected state holding one author and one book titled "xax". -/
def stSearch : DBState :=
  ⟨[⟨1, "Ann", "ann@x.com"⟩], [⟨1, "xax", "ccc", 1⟩], 2, 2, true⟩

/-- A connected state holding two authors with distinct emails. -/
def stTwo : DBState :=
  ⟨[⟨1, "Alice", "alice@example.com"⟩, ⟨2, "Bob", "bob@example.com"⟩],
   [], 3, 1, true⟩

/-- The field value a partial update is expected to leave in place: the
trimmed supplied value when one is provided, the previous value
otherwise. -/
def updField (o : Option String) (old : String) : String :=
  match o with
  | some s => pyStrip s
  | none => old

/-- A connected state holding one author and one book. -/
def stOneBook : DBState :=
  ⟨[⟨1, "Ann", "ann@x.com"⟩], [⟨1, "T", "C", 1⟩], 2, 2, true⟩

namespace SqlPractice

theorem retryGo_all_fail {α : Type} (op : Nat → Except PyExc α) :
    ∀ (remaining attempt : Nat),
      (∀ k, attempt ≤ k → k ≤ attempt + remaining → ∃ e, op k = .error e) →
      retryGo op attempt remaining = (op (attempt + remaining), attempt + remaining + 1) := by
  intro remaining
  induction remaining with
  | zero =>
    intro attempt _
    simp [retryGo]
  | succ n ih =>
    intro attempt h
    obtain ⟨e, he⟩ := h attempt (le_refl _) (Nat.le_add_right _ _)
    have hrec := ih (attempt + 1) (fun k hk1 hk2 => h k (Nat.le_of_succ_le hk1) (by omega))
    simp only [retryGo, he]
    rw [hrec]
    have harith : attempt + 1 + n = attempt + (n + 1) := by omega
    rw [harith]

theorem retryGo_first_ok {α : Type} (op : Nat → Except PyExc α) :
    ∀ (remaining attempt : Nat) (r : α),
      op attempt = .ok r →
      retryGo op attempt remaining = (.ok r, attempt + 1) := by
  intro remaining
  cases remaining with
  | zero => intro attempt r h; simp [retryGo, h]
  | succ n => intro attempt r h; simp [retryGo, h]

/-- A deterministic (attempt-independent) operation comes back from the
retry wrapper with exactly its own outcome. -/
theorem retry_const {α : Type} (max_retries : Nat) (x : Except PyExc α) :
    retry_on_failure max_retries (fun _ => x) = x := by
  cases x with
  | ok r =>
    unfold retry_on_failure retryRun
    rw [retryGo_first_ok (fun _ => .ok r) max_retries 0 r rfl]
  | error e =>
    unfold retry_on_failure retryRun
    rw [retryGo_all_fail (fun _ => .error e) max_retries 0 (fun _ _ _ => ⟨e, rfl⟩)]

end SqlPractice

/-- In a list whose keys are pairwise distinct, key equality identifies
elements. -/
theorem key_inj_of_pairwise {α κ : Type} (key : α → κ) {l : List α}
    (hp : l.Pairwise (fun x y => key x ≠ key y))
    {a b : α} (ha : a ∈ l) (hb : b ∈ l) (hk : key a = key b) : a = b := by
  induction l with
  | nil => cases ha
  | cons h t ih =>
    obtain ⟨hhd, htl⟩ := List.pairwise_cons.mp hp
    rcases List.mem_cons.mp ha with rfl | hat <;>
      rcases List.mem_cons.mp hb with rfl | hbt
    · rfl
    · exact absurd hk (hhd b hbt)
    · exact absurd hk.symm (hhd a hat)
    · exact ih htl hat hbt

section KeyLemmas

variable {α κ : Type} [BEq κ] [LawfulBEq κ]

/-- `find?` on a key-distinct list returns the member with the sought key. -/
theorem find?_key_of_mem (key : α → κ) {l : List α}
    (hp : l.Pairwise (fun x y => key x ≠ key y))
    {a : α} (ha : a ∈ l) {k : κ} (hk : key a = k) :
    l.find? (fun x => key x == k) = some a := by
  induction l with
  | nil => cases ha
  | cons h t ih =>
    obtain ⟨hhd, htl⟩ := List.pairwise_cons.mp hp
    rcases List.mem_cons.mp ha with rfl | hat
    · exact List.find?_cons_of_pos _ (by simp [hk])
    · have hne : key h ≠ k := fun he => hhd a hat (he.trans hk.symm)
      rw [List.find?_cons_of_neg _ (by simp [hne])]
      exact ih htl hat

/-- `find?` misses iff no member has the key. -/
theorem find?_key_none (key : α → κ) {l : List α} {k : κ}
    (h : ∀ x ∈ l, key x ≠ k) :
    l.find? (fun x => key x == k) = none :=
  List.find?_eq_none.mpr (fun x hx => by simp [h x hx])

/-- On a key-distinct list containing a member with key `k`, exactly one
element passes the key filter. -/
theorem filter_key_length_one (key : α → κ) {l : List α}
    (hp : l.Pairwise (fun x y => key x ≠ key y))
    {a : α} (ha : a ∈ l) {k : κ} (hk : key a = k) :
    (l.filter (fun x => key x == k)).length = 1 := by
  induction l with
  | nil => cases ha
  | cons h t ih =>
    obtain ⟨hhd, htl⟩ := List.pairwise_cons.mp hp
    rcases List.mem_cons.mp ha with rfl | hat
    · rw [List.filter_cons_of_pos (by simp [hk])]
      have : t.filter (fun x => key x == k) = [] := by
        rw [List.filter_eq_nil_iff]
        intro x hx
        simp only [beq_iff_eq]
        exact fun he => hhd x hx (hk.trans he.symm)
      simp [this]
    · have hne : key h ≠ k := fun he => hhd a hat (he.trans hk.symm)
      rw [List.filter_cons_of_neg (by simp [hne])]
      exact ih htl hat

/-- The two halves of a filter split partition the length. -/
theorem length_filter_split (p : α → Bool) (l : List α) :
    (l.filter p).length + (l.filter (fun x => !(p x))).length = l.length := by
  induction l with
  | nil => rfl
  | cons h t ih =>
    by_cases hp : p h
    · simp [List.filter_cons, hp, ← ih]; omega
    · simp only [List.filter_cons]
      simp [hp, ← ih]
      omega

/-- Replacing the (unique) element with key `k` by a fixed element `c`
carrying the same key through `map`, then looking the key up again,
yields exactly `c`. -/
theorem find?_map_update (key : α → κ) (c : α) {l : List α}
    (hp : l.Pairwise (fun x y => key x ≠ key y))
    {a : α} (ha : a ∈ l) {k : κ} (hk : key a = k) (hck : key c = k) :
    (l.map (fun x => if key x == k then c else x)).find?
      (fun x => key x == k) = some c := by
  induction l with
  | nil => cases ha
  | cons h t ih =>
    obtain ⟨hhd, htl⟩ := List.pairwise_cons.mp hp
    rcases List.mem_cons.mp ha with rfl | hat
    · simp only [List.map_cons, if_pos (by simp [hk] : (key a == k) = true)]
      exact List.find?_cons_of_pos _ (by simp [hck])
    · have hne : key h ≠ k := fun he => hhd a hat (he.trans hk.symm)
      simp only [List.map_cons, if_neg (by simp [hne] : ¬(key h == k) = true)]
      rw [List.find?_cons_of_neg _ (by simp [hne])]
      exact ih htl hat

end KeyLemmas

/-- `_validate_string` returns the trimmed string whenever the input is
a string that is non-empty after trimming and the length check does not
fire. -/
theorem validate_string_ok_of_valid (s : String) (fn : String) (ml : Option Int)
    (hne : pyStrip s ≠ "")
    (hlen : ¬(pyTruthy ml = true ∧ (s.length : Int) > ml.getD 0)) :
    DbCentral.validate_string (.str s) fn ml = .ok (pyStrip s) := by
  simp only [DbCentral.validate_string]
  rw [if_neg hne, if_neg (by simpa using hlen)]

/-- Every error `_validate_string` raises is a `ValidationError`. -/
theorem validate_string_error_validation (v : PyVal) (fn : String)
    (ml : Option Int) (e : DBErr)
    (h : DbCentral.validate_string v fn ml = .error e) :
    ∃ m, e = DBErr.validationError m := by
  cases v with
  | str s =>
    simp only [DbCentral.validate_string] at h
    by_cases h1 : pyStrip s = ""
    · rw [if_pos h1] at h
      exact ⟨_, (Except.error.inj h).symm⟩
    · rw [if_neg h1] at h
      by_cases h2 : (pyTruthy ml && decide ((s.length : Int) > ml.getD 0)) = true
      · rw [if_pos h2] at h
        exact ⟨_, (Except.error.inj h).symm⟩
      · rw [if_neg h2] at h
        exact Except.noConfusion h
  | int n => exact ⟨_, (Except.error.inj h).symm⟩
  | noneV => exact ⟨_, (Except.error.inj h).symm⟩
  | other tag => exact ⟨_, (Except.error.inj h).symm⟩

/-- `seqStarts` recognizes exactly the prefixes. -/
theorem seqStarts_iff (n h : List Char) :
    DbCentral.seqStarts n h = true ↔ ∃ t, h = n ++ t := by
  induction n generalizing h with
  | nil => simp [DbCentral.seqStarts]
  | cons a n ih =>
    cases h with
    | nil => simp [DbCentral.seqStarts]
    | cons b h' =>
      simp only [DbCentral.seqStarts, Bool.and_eq_true, beq_iff_eq, ih]
      constructor
      · rintro ⟨rfl, t, rfl⟩
        exact ⟨t, rfl⟩
      · rintro ⟨t, ht⟩
        injection ht with h1 h2
        exact ⟨h1.symm, t, h2⟩

/-- `seqContains` recognizes exactly the contiguous occurrences. -/
theorem seqContains_iff (n h : List Char) :
    DbCentral.seqContains n h = true ↔ ∃ s t, h = s ++ n ++ t := by
  induction h with
  | nil =>
    simp only [DbCentral.seqContains, List.isEmpty_iff]
    constructor
    · rintro rfl
      exact ⟨[], [], rfl⟩
    · rintro ⟨s, t, hst⟩
      rcases List.append_eq_nil.mp (List.append_eq_nil.mp hst.symm).1 with ⟨-, hn⟩
      exact hn
  | cons c t ih =>
    simp only [DbCentral.seqContains, Bool.or_eq_true, seqStarts_iff, ih]
    constructor
    · rintro (⟨u, hu⟩ | ⟨s, u, hsu⟩)
      · exact ⟨[], u, by simpa using hu⟩
      · exact ⟨c :: s, u, by simp [hsu]⟩
    · rintro ⟨s, u, hsu⟩
      cases s with
      | nil => exact Or.inl ⟨u, by simpa using hsu⟩
      | cons c' s' =>
        injection hsu with h1 h2
        exact Or.inr ⟨s', u, h2⟩



/-- The fuel argument of `likeCharsFuel` is irrelevant once it exceeds
pattern length + text length. -/
theorem likeCharsFuel_congr (f1 : Nat) :
    ∀ (f2 : Nat) (p t : List Char),
      p.length + t.length < f1 → p.length + t.length < f2 →
      DbCentral.likeCharsFuel f1 p t = DbCentral.likeCharsFuel f2 p t := by
  induction f1 with
  | zero => intro f2 p t h1 h2; omega
  | succ g1 ih =>
    intro f2 p t h1 h2
    cases f2 with
    | zero => omega
    | succ g2 =>
      cases p with
      | nil => rfl
      | cons c p2 =>
        cases t with
        | nil =>
          simp only [DbCentral.likeCharsFuel]
          simp only [List.length_cons, List.length_nil] at h1 h2
          by_cases hc : c = '%'
          · rw [if_pos hc, if_pos hc,
              ih g2 p2 [] (by simp only [List.length_nil]; omega)
                (by simp only [List.length_nil]; omega)]
          · rw [if_neg hc, if_neg hc]
        | cons d t2 =>
          simp only [DbCentral.likeCharsFuel]
          simp only [List.length_cons] at h1 h2
          by_cases hc : c = '%'
          · rw [if_pos hc, if_pos hc,
              ih g2 p2 (d :: t2) (by simp only [List.length_cons]; omega)
                (by simp only [List.length_cons]; omega),
              ih g2 (c :: p2) t2 (by simp only [List.length_cons]; omega)
                (by simp only [List.length_cons]; omega)]
          · rw [if_neg hc, if_neg hc,
              ih g2 p2 t2 (by omega) (by omega)]

/-- Any adequate fuel computes `likeChars`. -/
theorem likeChars_eq_fuel (f : Nat) (p t : List Char)
    (h : p.length + t.length < f) :
    DbCentral.likeCharsFuel f p t = DbCentral.likeChars p t :=
  likeCharsFuel_congr f (p.length + t.length + 1) p t h (by omega)

/-- `likeChars` unfolding: empty pattern matches only empty text. -/
theorem likeChars_nil (t : List Char) :
    DbCentral.likeChars [] t = t.isEmpty := rfl

/-- `likeChars` unfolding at a pattern head and empty text. -/
theorem likeChars_cons_nil (c : Char) (p2 : List Char) :
    DbCentral.likeChars (c :: p2) [] =
      if c = '%' then DbCentral.likeChars p2 [] else false := by
  rw [show DbCentral.likeChars (c :: p2) [] =
      (if c = '%' then
        DbCentral.likeCharsFuel ((c :: p2).length + ([] : List Char).length) p2 []
      else false) from rfl]
  by_cases hc : c = '%'
  · rw [if_pos hc, if_pos hc,
      likeChars_eq_fuel ((c :: p2).length + ([] : List Char).length) p2 []
        (by simp only [List.length_cons, List.length_nil]; omega)]
  · rw [if_neg hc, if_neg hc]

/-- `likeChars` unfolding at a pattern head and a text head. -/
theorem likeChars_cons_cons (c : Char) (p2 : List Char) (d : Char) (t2 : List Char) :
    DbCentral.likeChars (c :: p2) (d :: t2) =
      if c = '%' then
        DbCentral.likeChars p2 (d :: t2) || DbCentral.likeChars (c :: p2) t2
      else
        (if c = '_' then true else c == d) && DbCentral.likeChars p2 t2 := by
  rw [show DbCentral.likeChars (c :: p2) (d :: t2) =
      (if c = '%' then
        DbCentral.likeCharsFuel ((c :: p2).length + (d :: t2).length) p2 (d :: t2) ||
          DbCentral.likeCharsFuel ((c :: p2).length + (d :: t2).length) (c :: p2) t2
      else
        (if c = '_' then true else c == d) &&
          DbCentral.likeCharsFuel ((c :: p2).length + (d :: t2).length) p2 t2) from rfl]
  by_cases hc : c = '%'
  · rw [if_pos hc, if_pos hc,
      likeChars_eq_fuel ((c :: p2).length + (d :: t2).length) p2 (d :: t2)
        (by simp only [List.length_cons]; omega),
      likeChars_eq_fuel ((c :: p2).length + (d :: t2).length) (c :: p2) t2
        (by simp only [List.length_cons]; omega)]
  · rw [if_neg hc, if_neg hc,
      likeChars_eq_fuel ((c :: p2).length + (d :: t2).length) p2 t2
        (by simp only [List.length_cons]; omega)]

/-- The pattern `%` matches every text. -/
theorem likeChars_one_percent (t : List Char) :
    DbCentral.likeChars ['%'] t = true := by
  induction t with
  | nil => rfl
  | cons d t2 ih =>
    rw [likeChars_cons_cons, if_pos rfl, ih]
    exact Bool.or_true _

/-- A leading `%` consumes an arbitrary prefix of the text. -/
theorem likeChars_percent_iff (p t : List Char) :
    DbCentral.likeChars ('%' :: p) t = true ↔
      ∃ s u, t = s ++ u ∧ DbCentral.likeChars p u = true := by
  induction t with
  | nil =>
    rw [likeChars_cons_nil, if_pos rfl]
    constructor
    · intro h
      exact ⟨[], [], rfl, h⟩
    · rintro ⟨s, u, hsu, hu⟩
      obtain ⟨rfl, rfl⟩ := List.append_eq_nil.mp hsu.symm
      exact hu
  | cons d t2 ih =>
    rw [likeChars_cons_cons, if_pos rfl]
    simp only [Bool.or_eq_true, ih]
    constructor
    · rintro (h | ⟨s, u, rfl, hu⟩)
      · exact ⟨[], d :: t2, rfl, h⟩
      · exact ⟨d :: s, u, rfl, hu⟩
    · rintro ⟨s, u, hsu, hu⟩
      cases s with
      | nil =>
        simp only [List.nil_append] at hsu
        exact Or.inl (hsu ▸ hu)
      | cons e s2 =>
        injection hsu with h1 h2
        exact Or.inr ⟨s2, u, h2, hu⟩

/-- A wildcard-free pattern followed by `%` matches exactly the texts
that start with that pattern literally. -/
theorem likeChars_literal_percent {q : List Char}
    (hq : ∀ c ∈ q, c ≠ '%' ∧ c ≠ '_') :
    ∀ t, DbCentral.likeChars (q ++ ['%']) t = true ↔ ∃ u, t = q ++ u := by
  induction q with
  | nil =>
    intro t
    simp only [List.nil_append]
    constructor
    · intro _
      exact ⟨t, rfl⟩
    · intro _
      exact likeChars_one_percent t
  | cons c q2 ih =>
    intro t
    obtain ⟨hcp, hcu⟩ := hq c (List.mem_cons_self c q2)
    have ih2 := ih (fun x hx => hq x (List.mem_cons_of_mem c hx))
    rw [List.cons_append]
    cases t with
    | nil =>
      rw [likeChars_cons_nil, if_neg hcp]
      simp
    | cons d t2 =>
      rw [likeChars_cons_cons, if_neg hcp, if_neg hcu]
      simp only [Bool.and_eq_true, beq_iff_eq, ih2]
      constructor
      · rintro ⟨rfl, u, rfl⟩
        exact ⟨u, rfl⟩
      · rintro ⟨u, hu⟩
        injection hu with h1 h2
        exact ⟨h1.symm, u, h2⟩

/-- For a query free of the `LIKE` wildcards, the pattern `%query%`
matches exactly the texts containing the query as a literal contiguous
run. -/
theorem likeChars_contains_iff {q : List Char}
    (hq : ∀ c ∈ q, c ≠ '%' ∧ c ≠ '_') (t : List Char) :
    DbCentral.likeChars (('%' :: q) ++ ['%']) t = true ↔
      ∃ s u, t = s ++ q ++ u := by
  rw [List.cons_append, likeChars_percent_iff]
  constructor
  · rintro ⟨s, u, rfl, hu⟩
    obtain ⟨v, rfl⟩ := (likeChars_literal_percent hq u).mp hu
    exact ⟨s, v, by simp⟩
  · rintro ⟨s, u, rfl⟩
    exact ⟨s, q ++ u, by simp,
      (likeChars_literal_percent hq (q ++ u)).mpr ⟨u, rfl⟩⟩

/-- The pattern `%%%` — what the query `"%"` turns into — matches every
text. -/
theorem likeChars_all_percents (t : List Char) :
    DbCentral.likeChars (('%' :: ['%']) ++ ['%']) t = true := by
  rw [List.cons_append, likeChars_percent_iff]
  exact ⟨t, [], by simp, by decide⟩


/-- C1 counterexample: a failure that is not transient — a plain
`ValueError`, no connectivity blip — is retried all the same: with the
default `max_retries = 3` the wrapped operation is invoked 4 times
rather than propagating on the first call, and the error finally
surfaced is the raw `ValueError` itself, not an operation-class
wrapper. -/
theorem retry_nontransient_retried_and_raw :
    SqlPractice.retryRun 3 opNonTransient =
      (.error ⟨"ValueError", "invalid input", false⟩, 4) ∧
    (⟨"ValueError", "invalid input", false⟩ : PyExc).transient = false :=
  ⟨rfl, rfl⟩

/-- C1 (amended): `retry_on_failure(max_retries)` retries the wrapped
operation after every failure, transient or not, re-invoking it up to
`max_retries` further times with a fixed sleep in between; when all
`max_retries + 1` attempts fail, the exception of the last attempt is
re-raised as-is (raw, not wrapped in any operation-class failure). -/
theorem retry_on_failure_amended {α : Type} (max_retries : Nat)
    (op : Nat → Except PyExc α) :
    ((∀ k, k ≤ max_retries → ∃ e, op k = .error e) →
      SqlPractice.retryRun max_retries op = (op max_retries, max_retries + 1)) ∧
    (∀ r : α, 1 ≤ max_retries → (∃ e, op 0 = .error e) → op 1 = .ok r →
      SqlPractice.retry_on_failure max_retries op = .ok r) := by
  constructor
  · intro h
    unfold SqlPractice.retryRun
    have hall := SqlPractice.retryGo_all_fail op max_retries 0
      (fun k _ hk2 => h k (by omega))
    simpa using hall
  · rintro r hmr ⟨e0, he0⟩ h1
    unfold SqlPractice.retry_on_failure SqlPractice.retryRun
    cases max_retries with
    | zero => omega
    | succ m =>
      simp only [SqlPractice.retryGo, he0]
      rw [SqlPractice.retryGo_first_ok op m 1 r h1]

/-- Witness for the amended C1 theorem at concrete operations. -/
theorem retry_on_failure_amended_witness :
    SqlPractice.retryRun 3 opAllFail = (opAllFail 3, 4) ∧
    SqlPractice.retry_on_failure 3 opSecondTry = .ok 7 :=
  ⟨(retry_on_failure_amended 3 opAllFail).1 (fun k _ => ⟨_, rfl⟩),
   (retry_on_failure_amended 3 opSecondTry).2 7 (by decide) ⟨_, rfl⟩ rfl⟩

/-- C10: `get_all(model_class, limit=0)` — `if limit:` is false for `0`,
so no LIMIT clause is applied: the call succeeds with every stored
record of the class, exactly as `limit=None` does, rather than an empty
list. -/
theorem get_all_limit_zero_all_records (db : PStore) (mc : PyModelClass) :
    SqlPractice.get_all db mc (some 0) =
      .ok (db.rows.filter (fun r => r.cls == mc.name)) ∧
    SqlPractice.get_all db mc (some 0) = SqlPractice.get_all db mc none := by
  constructor
  · unfold SqlPractice.get_all
    rw [SqlPractice.retry_const]
    rfl
  · unfold SqlPractice.get_all
    rw [SqlPractice.retry_const, SqlPractice.retry_const]
    rfl

/-- C7: `find_by_attributes` — a filter naming a field that is not an
attribute of the model class always raises this module's
validation-error class (`ValueError`), never an empty result; when all
field names are attributes, the result is exactly the records of the
class satisfying every field=value constraint (implicit AND). -/
theorem find_by_attributes_spec (db : PStore) (mc : PyModelClass)
    (filters : List (String × PyVal)) :
    ((∃ f ∈ filters, ¬ f.1 ∈ mc.attrs) →
      ∃ msg, SqlPractice.find_by_attributes db mc filters =
        .error ⟨"ValueError", msg, false⟩) ∧
    ((∀ f ∈ filters, f.1 ∈ mc.attrs) →
      ∃ res, SqlPractice.find_by_attributes db mc filters = .ok res ∧
        ∀ r, r ∈ res ↔ r ∈ db.rows ∧ r.cls = mc.name ∧
          ∀ f ∈ filters, r.getattr f.1 = some f.2) := by
  constructor
  · rintro ⟨f, hf, hbad⟩
    have hne : filters.find? (fun g => !(mc.attrs.contains g.1)) ≠ none := by
      intro hnone
      exact hbad (by simpa using List.find?_eq_none.mp hnone f hf)
    cases hfound : filters.find? (fun g => !(mc.attrs.contains g.1)) with
    | none => exact absurd hfound hne
    | some g =>
      refine ⟨mc.name ++ " has no attribute " ++ g.1, ?_⟩
      unfold SqlPractice.find_by_attributes
      rw [SqlPractice.retry_const]
      unfold SqlPractice.find_by_attributes_body
      rw [hfound]
  · intro hall
    have hnone : filters.find? (fun g => !(mc.attrs.contains g.1)) = none :=
      List.find?_eq_none.mpr (fun g hg => by simpa using hall g hg)
    refine ⟨(db.rows.filter (fun r => r.cls == mc.name)).filter
      (fun r => filters.all (fun f => r.getattr f.1 == some f.2)), ?_, ?_⟩
    · unfold SqlPractice.find_by_attributes
      rw [SqlPractice.retry_const]
      unfold SqlPractice.find_by_attributes_body
      rw [hnone]
    · intro r
      simp [List.mem_filter, List.all_eq_true, beq_iff_eq]
      tauto



/-- Witness for the C7 theorem: an unknown field raises, and a valid
filter returns exactly the matching records. -/
theorem find_by_attributes_spec_witness :
    (∃ msg, SqlPractice.find_by_attributes pdb2 authorClass
      [("shoe_size", .int 42)] = .error ⟨"ValueError", msg, false⟩) ∧
    (∃ res, SqlPractice.find_by_attributes pdb2 authorClass
      [("name", .str "Bob")] = .ok res ∧
      ∀ r, r ∈ res ↔ r ∈ pdb2.rows ∧ r.cls = authorClass.name ∧
        ∀ f ∈ [(("name" : String), PyVal.str "Bob")], r.getattr f.1 = some f.2) :=
  ⟨(find_by_attributes_spec pdb2 authorClass [("shoe_size", .int 42)]).1
      ⟨("shoe_size", .int 42), by decide, by decide⟩,
   (find_by_attributes_spec pdb2 authorClass [("name", .str "Bob")]).2
      (by decide)⟩



/-- C2 counterexample: deleting a book id that does not exist does not
return `False` — `delete_book` raises `NotFoundError`. -/
theorem delete_book_notfound_raises :
    DbCentral.delete_book emptyDB 1 =
      .error (.notFoundError "Book with ID 1 not found") := rfl

/-- C2 (amended): delete returns `True` exactly when a matching row was
removed and never returns `False`; when no matching row exists it
raises — `NotFoundError` from the façade's `delete_book`, `ValueError`
from the generic manager's `delete`. -/
theorem delete_semantics_amended (st : DBState) (book_id : Int)
    (hc : st.connected = true)
    (hpw : st.books.Pairwise (fun x y => x.id ≠ y.id))
    (hbpos : ∀ b ∈ st.books, 0 < b.id) :
    (0 < book_id → (∀ b ∈ st.books, b.id ≠ book_id) →
      ∃ msg, DbCentral.delete_book st book_id = .error (.notFoundError msg)) ∧
    (∀ b ∈ st.books, b.id = book_id →
      DbCentral.delete_book st book_id =
        .ok (true, ⟨st.authors, st.books.filter (fun x => !(x.id == book_id)),
          st.nextAuthorId, st.nextBookId, st.connected⟩) ∧
      (st.books.filter (fun x => !(x.id == book_id))).length + 1 = st.books.length) ∧
    (∀ p, DbCentral.delete_book st book_id = .ok p → p.1 = true) ∧
    (∀ (db : PStore) (inst : PyRecord) (i : Int), inst.pk = some i →
      (∀ r ∈ db.rows, ¬(r.cls = inst.cls ∧ r.pk = some i)) →
      ∃ msg, SqlPractice.delete db inst = .error ⟨"ValueError", msg, false⟩) := by
  refine ⟨?_, ?_, ?_, ?_⟩
  · intro hpos habs
    have hfind : st.books.find? (fun x => x.id == book_id) = none :=
      find?_key_none (fun x : Book => x.id) habs
    refine ⟨"Book with ID " ++ toString book_id ++ " not found", ?_⟩
    unfold DbCentral.delete_book DbCentral.runOp DbCentral.get_session
    rw [if_neg (by omega), hc]
    simp only [hfind]
    rfl
  · intro b hb hid
    have hpos : 0 < book_id := hid ▸ hbpos b hb
    have hfind : st.books.find? (fun x => x.id == book_id) = some b :=
      find?_key_of_mem (fun x : Book => x.id) hpw hb hid
    constructor
    · unfold DbCentral.delete_book DbCentral.runOp DbCentral.get_session
      rw [if_neg (by omega), hc]
      simp only [hfind]
      rfl
    · have h1 : (st.books.filter (fun x => x.id == book_id)).length = 1 :=
        filter_key_length_one (fun x : Book => x.id) hpw hb hid
      have h2 := length_filter_split (fun x : Book => x.id == book_id) st.books
      omega
  · intro p h
    unfold DbCentral.delete_book DbCentral.runOp DbCentral.get_session at h
    by_cases hpos : book_id ≤ 0
    · rw [if_pos hpos] at h
      exact Except.noConfusion h
    · rw [if_neg hpos, hc] at h
      cases hfind : st.books.find? (fun b => b.id == book_id) with
      | none =>
        rw [hfind] at h
        exact Except.noConfusion h
      | some b =>
        rw [hfind] at h
        rw [← Except.ok.inj h]
  · intro db inst i hpk habs
    have hfind : db.rows.find?
        (fun r => r.cls == inst.cls && r.pk == some i) = none := by
      apply List.find?_eq_none.mpr
      intro r hr
      simpa using habs r hr
    refine ⟨"No " ++ inst.cls ++ " found with ID: " ++ toString i, ?_⟩
    unfold SqlPractice.delete
    rw [SqlPractice.retry_const]
    simp only [SqlPractice.delete_body, hpk, hfind]

/-- Witness for the amended C2 theorem: in the concrete library state,
deleting absent id 9 raises `NotFoundError`, deleting present id 2
removes the row and returns `True`, and the generic `delete` of a row
missing from the store raises `ValueError`. -/
theorem delete_semantics_amended_witness :
    (∃ msg, DbCentral.delete_book stLib 9 = .error (.notFoundError msg)) ∧
    DbCentral.delete_book stLib 2 =
      .ok (true, ⟨stLib.authors, stLib.books.filter (fun x => !(x.id == 2)),
        stLib.nextAuthorId, stLib.nextBookId, stLib.connected⟩) ∧
    (∃ msg, SqlPractice.delete ⟨[]⟩ rowAlice = .error ⟨"ValueError", msg, false⟩) :=
  ⟨(delete_semantics_amended stLib 9 rfl (by decide) (by decide)).1
      (by decide) (by decide),
   ((delete_semantics_amended stLib 2 rfl (by decide) (by decide)).2.1
      ⟨2, "T2", "C2", 1⟩ (by decide) rfl).1,
   (delete_semantics_amended stLib 2 rfl (by decide) (by decide)).2.2.2
      ⟨[]⟩ rowAlice 1 (by decide) (by decide)⟩

/-- C6 counterexample: `"ab"` has length 2, which exceeds
`max_length = 0`, so by the claim the call should raise
`ValidationError` — but `if max_length and len(value) > max_length` is
false for the falsy `0`, and the call returns the string. -/
theorem validate_string_zero_maxlength :
    DbCentral.validate_string (.str "ab") "field" (some 0) = .ok "ab" ∧
    ((("ab" : String).length : Int) > 0) := ⟨rfl, by decide⟩

/-- C6 (amended): `_validate_string(value, field_name, max_length)`
raises exactly when value is not a string, is empty after trimming, or
its (untrimmed) length exceeds a provided, nonzero `max_length` — a
`max_length` of `0` is falsy and disables the length check; in every
other case it returns the trimmed string, and every error it raises is
a `ValidationError`. -/
theorem validate_string_characterization (v : PyVal) (fn : String)
    (ml : Option Int) :
    (∀ t, DbCentral.validate_string v fn ml = .ok t ↔
      ∃ raw, v = .str raw ∧ pyStrip raw ≠ "" ∧
        ¬(pyTruthy ml = true ∧ (raw.length : Int) > ml.getD 0) ∧
        t = pyStrip raw) ∧
    (∀ e, DbCentral.validate_string v fn ml = .error e →
      e.isValidationError = true) := by
  cases v with
  | str s =>
    constructor
    · intro t
      constructor
      · intro h
        simp only [DbCentral.validate_string] at h
        by_cases h1 : pyStrip s = ""
        · rw [if_pos h1] at h
          exact Except.noConfusion h
        · rw [if_neg h1] at h
          by_cases h2 : (pyTruthy ml && decide ((s.length : Int) > ml.getD 0)) = true
          · rw [if_pos h2] at h
            exact Except.noConfusion h
          · rw [if_neg h2] at h
            refine ⟨s, rfl, h1, ?_, (Except.ok.inj h).symm⟩
            rintro ⟨ha, hb⟩
            exact h2 (by simp [ha, hb])
      · rintro ⟨raw, hraw, hne, hlen, rfl⟩
        injection hraw with hrs
        subst hrs
        simp only [DbCentral.validate_string]
        rw [if_neg hne, if_neg (by simpa using hlen)]
    · intro e h
      simp only [DbCentral.validate_string] at h
      by_cases h1 : pyStrip s = ""
      · rw [if_pos h1] at h
        rw [← Except.error.inj h]
        rfl
      · rw [if_neg h1] at h
        by_cases h2 : (pyTruthy ml && decide ((s.length : Int) > ml.getD 0)) = true
        · rw [if_pos h2] at h
          rw [← Except.error.inj h]
          rfl
        · rw [if_neg h2] at h
          exact Except.noConfusion h
  | int n =>
    refine ⟨fun t => ⟨fun h => Except.noConfusion h, ?_⟩,
      fun e h => by rw [← Except.error.inj h]; rfl⟩
    rintro ⟨raw, hraw, -, -, -⟩
    exact PyVal.noConfusion hraw
  | noneV =>
    refine ⟨fun t => ⟨fun h => Except.noConfusion h, ?_⟩,
      fun e h => by rw [← Except.error.inj h]; rfl⟩
    rintro ⟨raw, hraw, -, -, -⟩
    exact PyVal.noConfusion hraw
  | other tag =>
    refine ⟨fun t => ⟨fun h => Except.noConfusion h, ?_⟩,
      fun e h => by rw [← Except.error.inj h]; rfl⟩
    rintro ⟨raw, hraw, -, -, -⟩
    exact PyVal.noConfusion hraw

/-- Witness for the amended C6 theorem: a padded string within length
bounds validates to its trimmed form. -/
theorem validate_string_characterization_witness :
    DbCentral.validate_string (.str "  hi  ") "name" (some 100) = .ok "hi" :=
  ((validate_string_characterization (.str "  hi  ") "name" (some 100)).1 "hi").mpr
    ⟨"  hi  ", rfl, by decide, by decide, by decide⟩

/-- C5 counterexample: after `close`, `create_author` with perfectly
valid inputs does not fail with a connection-class error: the
`ConnectionError` raised by `_get_session` is caught by
`create_author`'s generic `except Exception` clause and re-raised as a
base-class `DBCentralError`. -/
theorem post_close_not_connection_class :
    DbCentral.create_author (DbCentral.close emptyDB)
        (.str "Alice") (.str "alice@example.com") =
      .error (.dbCentralError
        "Unexpected error creating author: Database not connected") ∧
    DBErr.isConnectionError
      (.dbCentralError
        "Unexpected error creating author: Database not connected") = false :=
  ⟨rfl, rfl⟩

/-- C5 (amended): `close` is idempotent (closing twice equals closing
once, and it is a plain state transition, never an error); after close,
session acquisition itself fails with `ConnectionError`, and every
session-scoped operation fails — but `create_author`, `get_author` and
`create_book` surface that failure wrapped as a base-class
`DBCentralError` (their catch-all `except Exception` clause), not as a
connection-class error. -/
theorem close_semantics (st : DBState) :
    DbCentral.close (DbCentral.close st) = DbCentral.close st ∧
    DbCentral.get_session (DbCentral.close st) =
      .error (.connectionError "Database not connected") ∧
    (∀ (name email : PyVal) (n' e' : String),
      DbCentral.validate_string name "name" (some 100) = .ok n' →
      DbCentral.validate_string email "email" (some 100) = .ok e' →
      pyInStr '@' e' = true →
      DbCentral.create_author (DbCentral.close st) name email =
        .error (.dbCentralError
          "Unexpected error creating author: Database not connected")) ∧
    (∀ aid : Int, 0 < aid →
      DbCentral.get_author (DbCentral.close st) aid =
        .error (.dbCentralError
          "Unexpected error getting author: Database not connected")) ∧
    (∀ (title content : PyVal) (t' c' : String) (aid : Int),
      DbCentral.validate_string title "title" (some 200) = .ok t' →
      DbCentral.validate_string content "content" none = .ok c' →
      0 < aid →
      DbCentral.create_book (DbCentral.close st) title content aid =
        .error (.dbCentralError
          "Unexpected error creating book: Database not connected")) := by
  have hcl : (DbCentral.close st).connected = false := by
    unfold DbCentral.close
    by_cases h : st.connected = true <;> simp [h]
  refine ⟨?_, ?_, ?_, ?_, ?_⟩
  · unfold DbCentral.close
    by_cases h : st.connected = true <;> simp [h]
  · unfold DbCentral.get_session
    rw [hcl]
    rfl
  · intro name email n' e' hn he hat
    unfold DbCentral.create_author DbCentral.runOp DbCentral.get_session
    simp only [hn, he, hat, Bool.not_true, hcl]
    rfl
  · intro aid hpos
    unfold DbCentral.get_author DbCentral.runOp DbCentral.get_session
    rw [if_neg (by omega), hcl]
    rfl
  · intro title content t' c' aid ht hcv hpos
    unfold DbCentral.create_book DbCentral.runOp DbCentral.get_session
    simp only [ht, hcv, hcl]
    rw [if_neg (by omega)]
    rfl

/-- Witness for the amended C5 theorem at the concrete library state. -/
theorem close_semantics_witness :
    DbCentral.create_author (DbCentral.close stLib)
        (.str "Bob") (.str "bob@x.com") =
      .error (.dbCentralError
        "Unexpected error creating author: Database not connected") ∧
    DbCentral.get_author (DbCentral.close stLib) 1 =
      .error (.dbCentralError
        "Unexpected error getting author: Database not connected") ∧
    DbCentral.create_book (DbCentral.close stLib) (.str "T") (.str "C") 1 =
      .error (.dbCentralError
        "Unexpected error creating book: Database not connected") :=
  ⟨(close_semantics stLib).2.2.1 (.str "Bob") (.str "bob@x.com")
      "Bob" "bob@x.com" rfl rfl rfl,
   (close_semantics stLib).2.2.2.1 1 (by decide),
   (close_semantics stLib).2.2.2.2 (.str "T") (.str "C") "T" "C" 1
      rfl rfl (by decide)⟩



/-- C8 counterexample: for the whitespace-padded query `" a "`, the
books returned are not those containing `" a "`: `search_books` trims
the query first and returns the book `"xax"`/`"ccc"`, although neither
its title nor its content contains `" a "` as a (case-insensitive)
substring. -/
theorem search_books_returns_nonmatching :
    DbCentral.search_books stSearch (.str " a ") = .ok [⟨1, "xax", "ccc", 1⟩] ∧
    DbCentral.seqContains (DbCentral.lowerChars " a ")
      (DbCentral.lowerChars "xax") = false ∧
    DbCentral.seqContains (DbCentral.lowerChars " a ")
      (DbCentral.lowerChars "ccc") = false :=
  ⟨rfl, rfl, rfl⟩

/-- C8 (amended): `search_books` validates — and thereby trims — its
query: a query that is not a string or is empty/whitespace-only raises
`ValidationError` (in particular `search_books("")` does).  The trimmed
query is then embedded unescaped in the `LIKE` pattern `%query%`, so
`%` and `_` inside the query keep their wildcard meaning: for queries
free of those wildcard characters the result is exactly the books whose
lowered title or lowered content contains the lowered trimmed query as
a literal contiguous run (SQLite's default `LIKE` is
ASCII-case-insensitive), while for example the query `"%"` matches
every book. -/
theorem search_books_amended (st : DBState) (hc : st.connected = true) :
    (∀ q : String, pyStrip q = "" →
      DbCentral.search_books st (.str q) =
        .error (.validationError "search query cannot be empty")) ∧
    DbCentral.search_books st (.str "") =
      .error (.validationError "search query cannot be empty") ∧
    (∀ q : String, pyStrip q ≠ "" →
      (∀ c ∈ DbCentral.lowerChars (pyStrip q), c ≠ '%' ∧ c ≠ '_') →
      ∃ res, DbCentral.search_books st (.str q) = .ok res ∧
        ∀ b, b ∈ res ↔ b ∈ st.books ∧
          ((∃ s u, DbCentral.lowerChars b.title =
              s ++ DbCentral.lowerChars (pyStrip q) ++ u) ∨
           (∃ s u, DbCentral.lowerChars b.content =
              s ++ DbCentral.lowerChars (pyStrip q) ++ u))) ∧
    DbCentral.search_books st (.str "%") = .ok st.books := by
  have hempty : ∀ q : String, pyStrip q = "" →
      DbCentral.search_books st (.str q) =
        .error (.validationError "search query cannot be empty") := by
    intro q hq
    unfold DbCentral.search_books DbCentral.runOp
    simp only [DbCentral.validate_string]
    rw [if_pos hq]
    rfl
  refine ⟨hempty, hempty "" rfl, ?_, ?_⟩
  · intro q hq hwild
    refine ⟨st.books.filter (fun b => DbCentral.likeMatch b.title (pyStrip q) ||
      DbCentral.likeMatch b.content (pyStrip q)), ?_, ?_⟩
    · unfold DbCentral.search_books DbCentral.runOp DbCentral.get_session
      simp only [DbCentral.validate_string]
      rw [if_neg hq, if_neg (by simp [pyTruthy]), hc]
      rfl
    · intro b
      simp only [List.mem_filter, Bool.or_eq_true, DbCentral.likeMatch,
        likeChars_contains_iff hwild]
  · have hok : DbCentral.validate_string (.str "%") "search query" none =
        .ok "%" := rfl
    have hall : st.books.filter (fun b => DbCentral.likeMatch b.title "%" ||
        DbCentral.likeMatch b.content "%") = st.books := by
      apply List.filter_eq_self.mpr
      intro b _
      have h1 : DbCentral.likeMatch b.title "%" = true := by
        show DbCentral.likeChars (('%' :: DbCentral.lowerChars "%") ++ ['%'])
          (DbCentral.lowerChars b.title) = true
        exact likeChars_all_percents _
      rw [h1]
      rfl
    unfold DbCentral.search_books DbCentral.runOp DbCentral.get_session
    rw [hok, hc]
    exact congrArg Except.ok hall

/-- Witness for the amended C8 theorem: the empty query raises, a
padded wildcard-free query matches case-insensitively after trimming,
and the wildcard query `"%"` returns every book. -/
theorem search_books_amended_witness :
    DbCentral.search_books stSearch (.str "") =
      .error (.validationError "search query cannot be empty") ∧
    (∃ res, DbCentral.search_books stSearch (.str " A ") = .ok res ∧
      ∀ b, b ∈ res ↔ b ∈ stSearch.books ∧
        ((∃ s u, DbCentral.lowerChars b.title =
            s ++ DbCentral.lowerChars (pyStrip " A ") ++ u) ∨
         (∃ s u, DbCentral.lowerChars b.content =
            s ++ DbCentral.lowerChars (pyStrip " A ") ++ u))) ∧
    DbCentral.search_books stSearch (.str "%") = .ok stSearch.books :=
  ⟨(search_books_amended stSearch rfl).2.1,
   (search_books_amended stSearch rfl).2.2.1 " A " (by decide) (by decide),
   (search_books_amended stSearch rfl).2.2.2⟩

/-- C4: email uniqueness across authors is enforced before persistence
and preserved by every operation: `create_author` fails with
`ValidationError` whenever the email is already used by an existing
author, regardless of the name argument (a bad name also only ever
yields `ValidationError`); `update_author` re-checks a new email against
all authors other than the one being updated, so changing to another
author's email fails with `ValidationError` while keeping one's own
email succeeds. -/
theorem author_email_uniqueness (st : DBState) (hc : st.connected = true)
    (hwf : DbCentral.WF st) :
    (∀ (name : PyVal) (a : Author), a ∈ st.authors →
      ∃ msg, DbCentral.create_author st name (.str a.email) =
        .error (.validationError msg)) ∧
    (∀ (a b : Author), a ∈ st.authors → b ∈ st.authors → b.id ≠ a.id →
      ∃ msg, DbCentral.update_author st a.id none (some (.str b.email)) =
        .error (.validationError msg)) ∧
    (∀ a : Author, a ∈ st.authors →
      ∃ a' st', DbCentral.update_author st a.id none (some (.str a.email)) =
        .ok (a', st') ∧ a'.email = a.email ∧ a'.id = a.id) := by
  obtain ⟨hidpw, hbpw, hempw, hcanon, hbpos⟩ := hwf
  refine ⟨?_, ?_, ?_⟩
  · intro name a ha
    obtain ⟨hidp, hstrip, hnemp, hlen, hat⟩ := hcanon a ha
    have hemail_ok : DbCentral.validate_string (.str a.email) "email" (some 100) =
        .ok a.email := by
      have h := validate_string_ok_of_valid a.email "email" (some 100)
        (by rw [hstrip]; exact hnemp)
        (by rintro ⟨-, hgt⟩; simp only [Option.getD] at hgt; omega)
      rw [hstrip] at h
      exact h
    cases hv : DbCentral.validate_string name "name" (some 100) with
    | error e =>
      obtain ⟨m, rfl⟩ := validate_string_error_validation _ _ _ _ hv
      refine ⟨m, ?_⟩
      unfold DbCentral.create_author DbCentral.runOp
      simp only [hv]
      rfl
    | ok n' =>
      have hfind : st.authors.find? (fun x => x.email == a.email) = some a :=
        find?_key_of_mem (fun x : Author => x.email) hempw ha rfl
      refine ⟨"Author with email " ++ a.email ++ " already exists", ?_⟩
      unfold DbCentral.create_author DbCentral.runOp DbCentral.get_session
      simp only [hv, hemail_ok, hat, Bool.not_true, hc, hfind]
      rfl
  · intro a b ha hb hne
    obtain ⟨hapos, -, -, -, -⟩ := hcanon a ha
    obtain ⟨-, hstrip, hnemp, hlen, hat⟩ := hcanon b hb
    have hemail_ok : DbCentral.validate_string (.str b.email) "email" (some 100) =
        .ok b.email := by
      have h := validate_string_ok_of_valid b.email "email" (some 100)
        (by rw [hstrip]; exact hnemp)
        (by rintro ⟨-, hgt⟩; simp only [Option.getD] at hgt; omega)
      rw [hstrip] at h
      exact h
    have hfa : st.authors.find? (fun x => x.id == a.id) = some a :=
      find?_key_of_mem (fun x : Author => x.id) hidpw ha rfl
    have hdup : (st.authors.find?
        (fun x => x.email == b.email && x.id != a.id)).isSome = true := by
      rw [List.find?_isSome]
      exact ⟨b, hb, by simp [hne]⟩
    cases hfound : st.authors.find? (fun x => x.email == b.email && x.id != a.id) with
    | none => rw [hfound] at hdup; exact Bool.noConfusion hdup
    | some y =>
      refine ⟨"Another author with email " ++ b.email ++ " already exists", ?_⟩
      unfold DbCentral.update_author DbCentral.runOp DbCentral.get_session
      rw [if_neg (by omega), hc]
      simp only [hfa, hemail_ok, hat, Bool.not_true, hfound]
      rfl
  · intro a ha
    obtain ⟨hapos, hstrip, hnemp, hlen, hat⟩ := hcanon a ha
    have hemail_ok : DbCentral.validate_string (.str a.email) "email" (some 100) =
        .ok a.email := by
      have h := validate_string_ok_of_valid a.email "email" (some 100)
        (by rw [hstrip]; exact hnemp)
        (by rintro ⟨-, hgt⟩; simp only [Option.getD] at hgt; omega)
      rw [hstrip] at h
      exact h
    have hfa : st.authors.find? (fun x => x.id == a.id) = some a :=
      find?_key_of_mem (fun x : Author => x.id) hidpw ha rfl
    have hnodup : st.authors.find?
        (fun x => x.email == a.email && x.id != a.id) = none := by
      apply List.find?_eq_none.mpr
      intro x hx
      simp only [Bool.and_eq_true, beq_iff_eq, bne_iff_ne, ne_eq, not_and]
      intro hxe
      have hxa : x = a :=
        key_inj_of_pairwise (fun y : Author => y.email) hempw hx ha hxe
      simp [hxa]
    refine ⟨⟨a.id, a.name, a.email⟩,
      ⟨st.authors.map (fun x => if x.id == a.id then ⟨a.id, a.name, a.email⟩ else x),
        st.books, st.nextAuthorId, st.nextBookId, st.connected⟩, ?_, rfl, rfl⟩
    unfold DbCentral.update_author DbCentral.runOp DbCentral.get_session
    rw [if_neg (by omega), hc]
    simp only [hfa, hemail_ok, hat, Bool.not_true, hnodup]
    rfl



/-- Witness for the C4 theorem at the concrete two-author state. -/
theorem author_email_uniqueness_witness :
    (∃ msg, DbCentral.create_author stTwo (.str "Carol")
        (.str "alice@example.com") = .error (.validationError msg)) ∧
    (∃ msg, DbCentral.update_author stTwo 1 none
        (.some (.str "bob@example.com")) = .error (.validationError msg)) ∧
    (∃ a' st', DbCentral.update_author stTwo 1 none
        (.some (.str "alice@example.com")) = .ok (a', st') ∧
      a'.email = "alice@example.com" ∧ a'.id = 1) :=
  ⟨(author_email_uniqueness stTwo rfl (by decide)).1 (.str "Carol")
      ⟨1, "Alice", "alice@example.com"⟩ (by decide),
   (author_email_uniqueness stTwo rfl (by decide)).2.1
      ⟨1, "Alice", "alice@example.com"⟩ ⟨2, "Bob", "bob@example.com"⟩
      (by decide) (by decide) (by decide),
   (author_email_uniqueness stTwo rfl (by decide)).2.2
      ⟨1, "Alice", "alice@example.com"⟩ (by decide)⟩

/-- C3: deleting an existing author removes exactly the author's row and
all N book rows referencing it — N+1 rows in total — and returns `True`;
afterwards `get_book` on any of the deleted book ids raises
`NotFoundError`. -/
theorem delete_author_cascades (st : DBState) (a : Author)
    (hwf : DbCentral.WF st) (hc : st.connected = true) (ha : a ∈ st.authors) :
    DbCentral.delete_author st a.id =
      .ok (true, ⟨st.authors.filter (fun x => !(x.id == a.id)),
        st.books.filter (fun x => !(x.author_id == a.id)),
        st.nextAuthorId, st.nextBookId, st.connected⟩) ∧
    (st.authors.filter (fun x => !(x.id == a.id))).length + 1 =
      st.authors.length ∧
    (st.books.filter (fun x => !(x.author_id == a.id))).length +
        (st.books.filter (fun x => x.author_id == a.id)).length =
      st.books.length ∧
    ((st.authors.filter (fun x => !(x.id == a.id))).length +
        (st.books.filter (fun x => !(x.author_id == a.id))).length) +
        ((st.books.filter (fun x => x.author_id == a.id)).length + 1) =
      st.authors.length + st.books.length ∧
    (∀ b ∈ st.books, b.author_id = a.id →
      DbCentral.get_book ⟨st.authors.filter (fun x => !(x.id == a.id)),
        st.books.filter (fun x => !(x.author_id == a.id)),
        st.nextAuthorId, st.nextBookId, st.connected⟩ b.id =
        .error (.notFoundError
          ("Book with ID " ++ toString b.id ++ " not found"))) := by
  obtain ⟨hidpw, hbpw, hempw, hcanon, hbpos⟩ := hwf
  have hapos : 0 < a.id := (hcanon a ha).1
  have hfa : st.authors.find? (fun x => x.id == a.id) = some a :=
    find?_key_of_mem (fun x : Author => x.id) hidpw ha rfl
  have hlen1 : (st.authors.filter (fun x => !(x.id == a.id))).length + 1 =
      st.authors.length := by
    have h1 : (st.authors.filter (fun x => x.id == a.id)).length = 1 :=
      filter_key_length_one (fun x : Author => x.id) hidpw ha rfl
    have h2 := length_filter_split (fun x : Author => x.id == a.id) st.authors
    omega
  have hlen2 : (st.books.filter (fun x => !(x.author_id == a.id))).length +
      (st.books.filter (fun x => x.author_id == a.id)).length =
      st.books.length := by
    have h2 := length_filter_split (fun x : Book => x.author_id == a.id) st.books
    omega
  refine ⟨?_, hlen1, hlen2, by omega, ?_⟩
  · unfold DbCentral.delete_author DbCentral.runOp DbCentral.get_session
    rw [if_neg (by omega), hc]
    simp only [hfa]
    rfl
  · intro b hb hba
    have hbpos' : 0 < b.id := hbpos b hb
    have hnone : (st.books.filter (fun x => !(x.author_id == a.id))).find?
        (fun x => x.id == b.id) = none := by
      apply List.find?_eq_none.mpr
      intro x hx
      obtain ⟨hxmem, hxkeep⟩ := List.mem_filter.mp hx
      simp only [beq_iff_eq]
      intro hxid
      have hxb : x = b :=
        key_inj_of_pairwise (fun y : Book => y.id) hbpw hxmem hb hxid
      rw [hxb] at hxkeep
      simp [hba] at hxkeep
    unfold DbCentral.get_book DbCentral.runOp DbCentral.get_session
    rw [if_neg (by omega)]
    simp only [hnone, hc]
    rfl

/-- Witness for the C3 theorem: deleting the only author of `stLib`
(owner of both books) empties both tables, 3 rows disappear, and both
book ids subsequently raise `NotFoundError` from `get_book`. -/
theorem delete_author_cascades_witness :
    DbCentral.delete_author stLib 1 =
      .ok (true, ⟨stLib.authors.filter (fun x => !(x.id == 1)),
        stLib.books.filter (fun x => !(x.author_id == 1)),
        stLib.nextAuthorId, stLib.nextBookId, stLib.connected⟩) ∧
    (stLib.authors.filter (fun x => !(x.id == 1))).length + 1 =
      stLib.authors.length ∧
    (stLib.books.filter (fun x => !(x.author_id == 1))).length +
        (stLib.books.filter (fun x => x.author_id == 1)).length =
      stLib.books.length ∧
    ((stLib.authors.filter (fun x => !(x.id == 1))).length +
        (stLib.books.filter (fun x => !(x.author_id == 1))).length) +
        ((stLib.books.filter (fun x => x.author_id == 1)).length + 1) =
      stLib.authors.length + stLib.books.length ∧
    (∀ b ∈ stLib.books, b.author_id = 1 →
      DbCentral.get_book ⟨stLib.authors.filter (fun x => !(x.id == 1)),
        stLib.books.filter (fun x => !(x.author_id == 1)),
        stLib.nextAuthorId, stLib.nextBookId, stLib.connected⟩ b.id =
        .error (.notFoundError
          ("Book with ID " ++ toString b.id ++ " not found"))) :=
  delete_author_cascades stLib ⟨1, "Alice", "alice@example.com"⟩
    (by decide) rfl (by decide)



/-- C9 counterexample: updating a book's title to the (valid) supplied
value `" X "` stores `"X"`, so the book read back carries a title that
differs from the supplied value — the claim's "updated fields equal the
supplied values" fails whenever the supplied string carries surrounding
whitespace. -/
theorem update_book_stores_trimmed_not_supplied :
    DbCentral.update_book stOneBook 1 (some (.str " X ")) none none =
      .ok (⟨1, "X", "C", 1⟩,
        ⟨[⟨1, "Ann", "ann@x.com"⟩], [⟨1, "X", "C", 1⟩], 2, 2, true⟩) ∧
    DbCentral.get_book
        ⟨[⟨1, "Ann", "ann@x.com"⟩], [⟨1, "X", "C", 1⟩], 2, 2, true⟩ 1 =
      .ok ⟨1, "X", "C", 1⟩ ∧
    ("X" : String) ≠ " X " :=
  ⟨rfl, rfl, by decide⟩

/-- C9 (amended): round-trip with frame condition, modulo validation
trimming: for an existing book and any subset of valid field values,
`update_book` succeeds and a subsequent `get_book` returns a book whose
supplied string fields equal the TRIMMED supplied values, whose supplied
`author_id` equals the supplied id, and whose unspecified fields are
unchanged; the author table and the book count are untouched. -/
theorem update_get_roundtrip (st : DBState) (b : Book)
    (t? c? : Option String) (aid? : Option Int)
    (hwf : DbCentral.WF st) (hc : st.connected = true) (hb : b ∈ st.books)
    (ht : ∀ s, t? = some s → pyStrip s ≠ "" ∧ (s.length : Int) ≤ 200)
    (hcv : ∀ s, c? = some s → pyStrip s ≠ "")
    (haid : ∀ i, aid? = some i → 0 < i ∧ ∃ a ∈ st.authors, a.id = i) :
    ∃ st',
      DbCentral.update_book st b.id (t?.map PyVal.str) (c?.map PyVal.str) aid? =
        .ok (⟨b.id, updField t? b.title, updField c? b.content,
          aid?.getD b.author_id⟩, st') ∧
      DbCentral.get_book st' b.id =
        .ok ⟨b.id, updField t? b.title, updField c? b.content,
          aid?.getD b.author_id⟩ ∧
      st'.authors = st.authors ∧
      st'.books.length = st.books.length ∧
      st'.connected = st.connected := by
  obtain ⟨hidpw, hbpw, hempw, hcanon, hbposall⟩ := hwf
  have hbpos : 0 < b.id := hbposall b hb
  have hfb : st.books.find? (fun x => x.id == b.id) = some b :=
    find?_key_of_mem (fun x : Book => x.id) hbpw hb rfl
  have hvT : ∀ s, t? = some s →
      DbCentral.validate_string (.str s) "title" (some 200) = .ok (pyStrip s) := by
    intro s hs
    exact validate_string_ok_of_valid s "title" (some 200) (ht s hs).1
      (by rintro ⟨-, hgt⟩
          have := (ht s hs).2
          simp only [Option.getD] at hgt
          omega)
  have hvC : ∀ s, c? = some s →
      DbCentral.validate_string (.str s) "content" none = .ok (pyStrip s) := by
    intro s hs
    exact validate_string_ok_of_valid s "content" none (hcv s hs)
      (by rintro ⟨hfalse, -⟩; simp [pyTruthy] at hfalse)
  have hmain : DbCentral.update_book st b.id
      (t?.map PyVal.str) (c?.map PyVal.str) aid? =
      .ok (⟨b.id, updField t? b.title, updField c? b.content,
          aid?.getD b.author_id⟩,
        ⟨st.authors,
          st.books.map (fun x => if x.id == b.id then
            ⟨b.id, updField t? b.title, updField c? b.content,
              aid?.getD b.author_id⟩ else x),
          st.nextAuthorId, st.nextBookId, st.connected⟩) := by
    rcases t? with - | s
    · rcases c? with - | s2
      · rcases aid? with - | i
        · unfold DbCentral.update_book DbCentral.runOp DbCentral.get_session
          rw [if_neg (show ¬(b.id ≤ 0) by omega), hc]
          simp only [Option.map_some', Option.map_none', hfb]
          rfl
        · obtain ⟨hip, a, hamem, haeq⟩ := haid i rfl
          have hfi : st.authors.find? (fun x => x.id == i) = some a :=
            find?_key_of_mem (fun x : Author => x.id) hidpw hamem haeq
          unfold DbCentral.update_book DbCentral.runOp DbCentral.get_session
          rw [if_neg (show ¬(b.id ≤ 0) by omega), hc]
          simp only [Option.map_some', Option.map_none', hfb]
          rw [if_neg (show ¬(i ≤ 0) by omega), hfi]
          rfl
      · rcases aid? with - | i
        · unfold DbCentral.update_book DbCentral.runOp DbCentral.get_session
          rw [if_neg (show ¬(b.id ≤ 0) by omega), hc]
          simp only [Option.map_some', Option.map_none', hfb, hvC s2 rfl]
          rfl
        · obtain ⟨hip, a, hamem, haeq⟩ := haid i rfl
          have hfi : st.authors.find? (fun x => x.id == i) = some a :=
            find?_key_of_mem (fun x : Author => x.id) hidpw hamem haeq
          unfold DbCentral.update_book DbCentral.runOp DbCentral.get_session
          rw [if_neg (show ¬(b.id ≤ 0) by omega), hc]
          simp only [Option.map_some', Option.map_none', hfb, hvC s2 rfl]
          rw [if_neg (show ¬(i ≤ 0) by omega), hfi]
          rfl
    · rcases c? with - | s2
      · rcases aid? with - | i
        · unfold DbCentral.update_book DbCentral.runOp DbCentral.get_session
          rw [if_neg (show ¬(b.id ≤ 0) by omega), hc]
          simp only [Option.map_some', Option.map_none', hfb, hvT s rfl]
          rfl
        · obtain ⟨hip, a, hamem, haeq⟩ := haid i rfl
          have hfi : st.authors.find? (fun x => x.id == i) = some a :=
            find?_key_of_mem (fun x : Author => x.id) hidpw hamem haeq
          unfold DbCentral.update_book DbCentral.runOp DbCentral.get_session
          rw [if_neg (show ¬(b.id ≤ 0) by omega), hc]
          simp only [Option.map_some', Option.map_none', hfb, hvT s rfl]
          rw [if_neg (show ¬(i ≤ 0) by omega), hfi]
          rfl
      · rcases aid? with - | i
        · unfold DbCentral.update_book DbCentral.runOp DbCentral.get_session
          rw [if_neg (show ¬(b.id ≤ 0) by omega), hc]
          simp only [Option.map_some', Option.map_none', hfb,
            hvT s rfl, hvC s2 rfl]
          rfl
        · obtain ⟨hip, a, hamem, haeq⟩ := haid i rfl
          have hfi : st.authors.find? (fun x => x.id == i) = some a :=
            find?_key_of_mem (fun x : Author => x.id) hidpw hamem haeq
          unfold DbCentral.update_book DbCentral.runOp DbCentral.get_session
          rw [if_neg (show ¬(b.id ≤ 0) by omega), hc]
          simp only [Option.map_some', Option.map_none', hfb,
            hvT s rfl, hvC s2 rfl]
          rw [if_neg (show ¬(i ≤ 0) by omega), hfi]
          rfl
  refine ⟨_, hmain, ?_, rfl, by simp, rfl⟩
  have hfind2 : (st.books.map (fun x => if x.id == b.id then
      ⟨b.id, updField t? b.title, updField c? b.content,
        aid?.getD b.author_id⟩ else x)).find? (fun x => x.id == b.id) =
      some ⟨b.id, updField t? b.title, updField c? b.content,
        aid?.getD b.author_id⟩ :=
    find?_map_update (fun x : Book => x.id)
      ⟨b.id, updField t? b.title, updField c? b.content,
        aid?.getD b.author_id⟩ hbpw hb rfl rfl
  unfold DbCentral.get_book DbCentral.runOp DbCentral.get_session
  rw [if_neg (show ¬(b.id ≤ 0) by omega)]
  simp only [hfind2, hc]
  rfl

/-- Witness for the amended C9 theorem at the concrete one-book state:
updating only the title. -/
theorem update_get_roundtrip_witness :
    ∃ st',
      DbCentral.update_book stOneBook 1
          ((some "NT").map PyVal.str) ((none : Option String).map PyVal.str)
          (none : Option Int) =
        .ok (⟨1, updField (some "NT") "T", updField none "C",
          (none : Option Int).getD 1⟩, st') ∧
      DbCentral.get_book st' 1 =
        .ok ⟨1, updField (some "NT") "T", updField none "C",
          (none : Option Int).getD 1⟩ ∧
      st'.authors = stOneBook.authors ∧
      st'.books.length = stOneBook.books.length ∧
      st'.connected = stOneBook.connected :=
  update_get_roundtrip stOneBook ⟨1, "T", "C", 1⟩ (some "NT") none none
    (by decide) rfl (by decide)
    (by intro s hs; cases hs; exact ⟨by decide, by decide⟩)
    (by intro s hs; cases hs)
    (by intro i hi; cases hi)
